import Mathlib

/-!
PostLog: level codec, dispatcher, console sink and persistent sink.

A shallow embedding of `src/PostLog.h` and `src/PostLog.cpp`, followed by the
properties proved about it.

Conventions of the embedding
* `std::string` is `String`, `std::vector<ILogSink *>` is a `List` of handles,
  `time_t` is `Int`.
* A function that may throw returns `Option ε × state`: `none` is a normal
  return, `some e` is the exception `e` leaving the function, and the state is
  what the effects performed so far have left behind.
-/

namespace PostLog

/-! ## Level codec (PostLog.h:40-53, PostLog.cpp:47-73) -/

/-- The enumerators of `enum class LogLevel`, in declaration order. -/
inductive LogLevel where
  | Emergency
  | Alert
  | Critical
  | Fatal
  | Error
  | Warning
  | Notice
  | Info
  | Debug
  deriving DecidableEq, Repr

/-- Underlying value of an enumerator: declaration order, counted from 0. -/
def LogLevel.underlying : LogLevel → Int
  | .Emergency => 0
  | .Alert => 1
  | .Critical => 2
  | .Fatal => 3
  | .Error => 4
  | .Warning => 5
  | .Notice => 6
  | .Info => 7
  | .Debug => 8

/-- The `switch` of `logLevelToString` on the underlying value of its argument,
with its `default` arm. -/
def logLevelSwitch (v : Int) : String :=
  if v = 0 then "emerg"
  else if v = 1 then "alert"
  else if v = 2 then "crit"
  else if v = 3 then "fatal"
  else if v = 4 then "error"
  else if v = 5 then "warn"
  else if v = 6 then "notice"
  else if v = 7 then "info"
  else if v = 8 then "debug"
  else "unknown"

/-- `std::string logLevelToString(LogLevel level)`. -/
def logLevelToString (level : LogLevel) : String :=
  logLevelSwitch level.underlying

/-- `LogLevel logLevelFromString(const std::string &str)`: a chain of exact
string comparisons, with `Info` returned when none matches. -/
def logLevelFromString (str : String) : LogLevel :=
  if str = "emerg" then LogLevel.Emergency
  else if str = "alert" then LogLevel.Alert
  else if str = "crit" then LogLevel.Critical
  else if str = "fatal" then LogLevel.Fatal
  else if str = "error" then LogLevel.Error
  else if str = "warn" then LogLevel.Warning
  else if str = "notice" then LogLevel.Notice
  else if str = "info" then LogLevel.Info
  else if str = "debug" then LogLevel.Debug
  else LogLevel.Info

/-- The nine canonical level tokens, most to least severe. -/
def canonicalTokens : List String :=
  ["emerg", "alert", "crit", "fatal", "error", "warn", "notice", "info", "debug"]

/-- All enumerators of `LogLevel`, in declaration order. -/
def allLevels : List LogLevel :=
  [.Emergency, .Alert, .Critical, .Fatal, .Error, .Warning, .Notice, .Info, .Debug]

/-- A token is lowercase when none of its characters is an uppercase letter. -/
def isLowercase (s : String) : Bool :=
  s.toList.all fun c => !c.isUpper

/-! ## Log entries and the clock (PostLog.h:62-69, PostLog.cpp:75-77) -/

/-- The fields of `struct Log`. -/
structure Log where
  message : String
  level : LogLevel
  timestamp : String
  deriving DecidableEq, Repr

/-- `std::to_string` of a `time_t`: the decimal form of a signed integer. -/
def to_string (time : Int) : String :=
  toString time

/-- The constructor `Log::Log(msg, lvl, time)`: the timestamp is stored as the
decimal string of `time`. -/
def Log.new (msg : String) (lvl : LogLevel) (time : Int) : Log :=
  { message := msg, level := lvl, timestamp := to_string time }

/-- The wall clock as the program sees it: `readings n` is what the `n`-th call
of `time(nullptr)` returns, `reads` counts the calls made so far. -/
structure Clock where
  readings : Nat → Int
  reads : Nat

/-- One call of `time(nullptr)`: the current reading, and the clock after it. -/
def Clock.time (c : Clock) : Int × Clock :=
  (c.readings c.reads, { c with reads := c.reads + 1 })

/-! ## Dispatcher (PostLog.h:113-119, PostLog.cpp:21-44) -/

/-- An `ILogSink *`: the identity of a live sink object. -/
abbrev Handle := Nat

/-- What `sink->log(entry)` does for each sink object: from the state the sinks
act on to the state they leave, with the exception raised, if any. -/
abbrev SinkImpl (ε σ : Type) := Handle → Log → σ → Option ε × σ

/-- What a caller of the dispatcher can observe: the clock, the calls of
`ILogSink::log` made so far (oldest first) and the state the sinks act on. -/
structure World (σ : Type) where
  clock : Clock
  calls : List (Handle × Log)
  state : σ

/-- The virtual call `sink->log(entry)`: the call is made, then the sink runs. -/
def World.invoke {ε σ : Type} (impl : SinkImpl ε σ) (sink : Handle) (entry : Log)
    (w : World σ) : Option ε × World σ :=
  ((impl sink entry w.state).1,
    { w with calls := w.calls ++ [(sink, entry)], state := (impl sink entry w.state).2 })

/-- Class `Logger`: its only member is the vector `sinks`. -/
structure Logger where
  sinks : List Handle
  deriving DecidableEq, Repr

/-- `std::erase(c, value)` on a vector: the elements equal to `value` are
dropped, the others move up in their order. -/
def stdErase (c : List Handle) (value : Handle) : List Handle :=
  match c with
  | [] => []
  | x :: rest => if x = value then stdErase rest value else x :: stdErase rest value

/-- `Logger::addSink`: `sinks.push_back(sink)`. -/
def Logger.addSink (lg : Logger) (sink : Handle) : Logger :=
  { sinks := lg.sinks ++ [sink] }

/-- `Logger::removeSink`: `std::erase(sinks, sink)`. -/
def Logger.removeSink (lg : Logger) (sink : Handle) : Logger :=
  { sinks := stdErase lg.sinks sink }

/-- The loop `for (ILogSink *sink : sinks) sink->log(entry);` over the sinks that
are still to be visited: an exception raised by a call leaves the loop. -/
def Logger.forward {ε σ : Type} (impl : SinkImpl ε σ) (entry : Log) :
    List Handle → World σ → Option ε × World σ
  | [], w => (none, w)
  | sink :: rest, w =>
    match World.invoke impl sink entry w with
    | (some err, w1) => (some err, w1)
    | (none, w1) => Logger.forward impl entry rest w1

/-- `Logger::log(message, level)`: read the clock, build the entry, run the loop. -/
def Logger.log {ε σ : Type} (lg : Logger) (impl : SinkImpl ε σ) (message level : String)
    (w : World σ) : Option ε × World σ :=
  let timestamp := w.clock.time.1
  let entry := Log.new message (logLevelFromString level) timestamp
  Logger.forward impl entry lg.sinks { w with clock := w.clock.time.2 }

/-- The default value of the `level` parameter of `Logger::log` (PostLog.h:118). -/
def Logger.defaultLevel : String := "INFO"

/-- A logger with no sink registered, as default construction leaves it. -/
def Logger.empty : Logger := { sinks := [] }

/-- The registry reached from `lg` by `addSink` calls, one per handle of `hs`. -/
def Logger.addSinks (lg : Logger) (hs : List Handle) : Logger :=
  hs.foldl Logger.addSink lg

/-- Number of calls of `log` on the sink `h` among the calls recorded in `w`. -/
def World.invocations {σ : Type} (w : World σ) (h : Handle) : Nat :=
  (w.calls.filter fun c => c.1 = h).length

/-- A recording test setup: the state counts the entries delivered, and the sink
with handle `bad` raises the error `"boom"` instead of recording. -/
def recordingSinks (bad : Handle) : SinkImpl String Nat :=
  fun sink _ n => if sink = bad then (some "boom", n) else (none, n + 1)

/-- A world at the start of a test: the clock reads `1700000000 + n` at its
`n`-th call, no call has been made, nothing has been delivered. -/
def World.start : World Nat :=
  { clock := { readings := fun n => 1700000000 + n, reads := 0 }, calls := [], state := 0 }

/-- State left by the sinks `hs` when each runs in turn, on what the previous one
left, whatever each of them returns or raises. -/
def runSinks {ε σ : Type} (impl : SinkImpl ε σ) (entry : Log) : List Handle → σ → σ
  | [], st => st
  | sink :: rest, st => runSinks impl entry rest (impl sink entry st).2

/-! ## Persistent sink (PostLog.h:99-107, PostLog.cpp:93-128)

The store client (libpqxx) and the database server are outside the repository.
They are modelled by what the statements issued by the sink mean: a database maps
table names to tables, a transaction works on a private view that replaces the
committed contents at `commit`, and any operation sent over the connection may
fail, as decided by the environment.  Tables found under the sink's table name
are taken to have the columns that `setup` creates. -/

/-- A row of the log table: `id SERIAL PRIMARY KEY, level TEXT, timestamp BIGINT,
message TEXT`. -/
structure Row where
  id : Nat
  level : String
  timestamp : Int
  message : String
  deriving DecidableEq, Repr

/-- A table: its rows, oldest first, and the next value of its `id` sequence. -/
structure Table where
  rows : List Row
  nextId : Nat
  deriving DecidableEq, Repr

/-- Contents of a database: the table stored under each name, if there is one. -/
abbrev Db := String → Option Table

/-- The database `db` with `tb` stored under `name`. -/
def Db.set (db : Db) (name : String) (tb : Table) : Db :=
  fun n => if n = name then some tb else db n

/-- What makes a store operation throw. -/
inductive StoreError where
  | failed (op : Nat)
  | undefinedTable (name : String)
  | invalidBigint
  deriving DecidableEq, Repr

/-- The connection `*conn` and the server behind it: the committed contents, the
number of operations sent so far, and for each operation number whether the
environment makes it fail (connection lost, statement refused). -/
structure Store where
  db : Db
  fails : Nat → Bool
  ops : Nat

/-- Whether the next operation sent over the connection fails. -/
def Store.fault (s : Store) : Bool :=
  s.fails s.ops

/-- The store after one more operation has been sent. -/
def Store.tick (s : Store) : Store :=
  { s with ops := s.ops + 1 }

/-- A value handed to `txn.quote`: a number (a `time_t`) or a text (a
`std::string`). -/
inductive SqlValue where
  | number (n : Int)
  | text (s : String)
  deriving DecidableEq, Repr

/-- Value of a non-empty run of decimal digits, most significant first. -/
def digitsValue (ds : List Char) : Option Nat :=
  if ds.isEmpty || !ds.all Char.isDigit then none
  else some (ds.foldl (fun n c => 10 * n + (c.toNat - 48)) 0)

/-- The server reading a text as a `BIGINT`: an optional sign followed by decimal
digits, with a value in the 64-bit signed range; any other text is refused. -/
def parseBigint (s : String) : Option Int :=
  let cs := s.toList
  let v : Option Int :=
    if cs.head? = some '-' then (digitsValue cs.tail).map fun (n : Nat) => -(n : Int)
    else if cs.head? = some '+' then (digitsValue cs.tail).map fun (n : Nat) => (n : Int)
    else (digitsValue cs).map fun (n : Nat) => (n : Int)
  v.bind fun n => if -9223372036854775808 ≤ n ∧ n ≤ 9223372036854775807 then some n else none

/-- The value stored in a `BIGINT` column for a value written in a statement. -/
def SqlValue.toBigint : SqlValue → Option Int
  | .number n => some n
  | .text s => parseBigint s

/-- The statements the sink issues, by what they mean. -/
inductive Statement where
  | createTableIfNotExists (table : String)
  | selectCount (table : String)
  | insert (table : String) (level : String) (timestamp : SqlValue) (message : String)
  deriving DecidableEq, Repr

/-- An open `pqxx::work`: the connection it runs on and the contents as the
transaction sees them. -/
structure Work where
  conn : Store
  view : Db

/-- `txn.exec(statement)`: the result rows (one field each), or the exception. -/
def Work.exec (txn : Work) (stmt : Statement) : Except StoreError (List Int) × Work :=
  if txn.conn.fault then
    (.error (.failed txn.conn.ops), { txn with conn := txn.conn.tick })
  else
    let txn : Work := { txn with conn := txn.conn.tick }
    match stmt with
    | .createTableIfNotExists table =>
      match txn.view table with
      | some _ => (.ok [], txn)
      | none =>
        let tb : Table := { rows := [], nextId := 1 }
        (.ok [], { txn with view := txn.view.set table tb })
    | .selectCount table =>
      match txn.view table with
      | none => (.error (.undefinedTable table), txn)
      | some tb => (.ok [(tb.rows.length : Int)], txn)
    | .insert table level timestamp message =>
      match txn.view table with
      | none => (.error (.undefinedTable table), txn)
      | some tb =>
        match timestamp.toBigint with
        | none => (.error .invalidBigint, txn)
        | some ts =>
          let row : Row := { id := tb.nextId, level := level, timestamp := ts, message := message }
          let tb1 : Table := { rows := tb.rows ++ [row], nextId := tb.nextId + 1 }
          (.ok [], { txn with view := txn.view.set table tb1 })

/-- The transaction destroyed without `commit`: the committed contents stay. -/
def Work.abort (txn : Work) : Store :=
  txn.conn

/-- `txn.commit()`: the view becomes the committed contents, unless the operation
fails. -/
def Work.commit (txn : Work) : Option StoreError × Store :=
  if txn.conn.fault then (some (.failed txn.conn.ops), txn.conn.tick)
  else (none, { txn.conn.tick with db := txn.view })

/-- Class `DatabaseSink`: the table name (the connection is the `Store`). -/
structure DatabaseSink where
  table : String
  deriving DecidableEq, Repr

/-- The message of the seed row. -/
def setupMessage : String := "Initial setup complete."

/-- `DatabaseSink::setup()`. -/
def DatabaseSink.setup (sink : DatabaseSink) (clock : Clock) (store : Store) :
    Option StoreError × Clock × Store :=
  -- pqxx::work txn(*conn);
  if store.fault then (some (.failed store.ops), clock, store.tick)
  else
    let txn : Work := { conn := store.tick, view := store.db }
    -- txn.exec("CREATE TABLE IF NOT EXISTS " + table + " (...)");
    match txn.exec (.createTableIfNotExists sink.table) with
    | (.error e, txn) => (some e, clock, txn.abort)
    | (.ok _, txn) =>
      -- pqxx::result r = txn.exec("SELECT COUNT(*) FROM " + table);
      match txn.exec (.selectCount sink.table) with
      | (.error e, txn) => (some e, clock, txn.abort)
      | (.ok r, txn) =>
        -- if (!r.empty() && r[0][0].as<long>() == 0)
        if (match r with
            | [] => false
            | count :: _ => decide (count = 0)) then
          match txn.exec (.insert sink.table (logLevelToString LogLevel.Notice)
              (.number clock.time.1) setupMessage) with
          | (.error e, txn) => (some e, clock.time.2, txn.abort)
          | (.ok _, txn) => ((txn.commit).1, clock.time.2, (txn.commit).2)
        else ((txn.commit).1, clock, (txn.commit).2)

/-- `DatabaseSink::log(entry)`. -/
def DatabaseSink.log (sink : DatabaseSink) (entry : Log) (store : Store) :
    Option StoreError × Store :=
  -- pqxx::work txn(*conn);
  if store.fault then (some (.failed store.ops), store.tick)
  else
    let txn : Work := { conn := store.tick, view := store.db }
    -- txn.exec("INSERT INTO " + table + " (level, timestamp, message) VALUES (...)");
    match txn.exec (.insert sink.table (logLevelToString entry.level)
        (.text entry.timestamp) entry.message) with
    | (.error e, txn) => (some e, txn.abort)
    | (.ok _, txn) => txn.commit

/-- A store on which no operation fails, holding the database `db`. -/
def Store.reliable (db : Db) : Store :=
  { db := db, fails := fun _ => false, ops := 0 }

/-- A database without any table. -/
def Db.fresh : Db := fun _ => none

/-- A clock for tests: the `n`-th reading is `1700000000 + n`. -/
def Clock.test : Clock :=
  { readings := fun n => 1700000000 + n, reads := 0 }

/-- The seed row written by `setup` with id `id` at clock reading `now`. -/
def seedRow (id : Nat) (now : Int) : Row :=
  { id := id, level := "notice", timestamp := now, message := setupMessage }

/-- The rows of the table `name` of `db`, oldest first; none when it is absent. -/
def Db.rows (db : Db) (name : String) : List Row :=
  match db name with
  | some tb => tb.rows
  | none => []

/-- The next `k` operations sent over the connection do not fail. -/
def Store.reliableFor (s : Store) (k : Nat) : Prop :=
  ∀ i, i < k → s.fails (s.ops + i) = false

/-- The error bits of a stream (`std::ios_base::iostate`). -/
structure IoState where
  badbit : Bool
  failbit : Bool
  eofbit : Bool
  deriving DecidableEq, Repr

/-- The exception `std::ios_base::failure`. -/
inductive StreamError where
  | failure
  deriving DecidableEq, Repr

/-- The stream `std::cout` as `ConsoleSink::log` finds it, with the device behind
it: the characters standard output has received, the error bits, the exception
mask, the pending field width, the fill character, whether adjustment is to the
left, and for each device operation, by number, whether it fails. -/
structure OStream where
  written : String
  state : IoState
  exceptions : IoState
  width : Nat
  fill : Char
  left : Bool
  deviceFails : Nat → Bool
  ops : Nat

/-- `os.good()`: no error bit is set. -/
def OStream.good (s : OStream) : Bool :=
  !(s.state.badbit || s.state.failbit || s.state.eofbit)

/-- `os.setstate(bits)`: the bits are added to the state, and
`std::ios_base::failure` is thrown when a bit of the state is in the mask. -/
def OStream.setstate (s : OStream) (bad fail : Bool) : Option StreamError × OStream :=
  let st : IoState :=
    { badbit := s.state.badbit || bad, failbit := s.state.failbit || fail,
      eofbit := s.state.eofbit }
  let thrown : Bool :=
    (st.badbit && s.exceptions.badbit) || (st.failbit && s.exceptions.failbit) ||
      (st.eofbit && s.exceptions.eofbit)
  (if thrown then some StreamError.failure else none, { s with state := st })

/-- `os << text` for a string: nothing is written on a stream that is not good
(`failbit` is set); otherwise the text, padded with the fill character up to the
pending field width (counted in bytes), goes to the device and the width is
reset to 0; a failure of the device sets `badbit`. -/
def OStream.insert (s : OStream) (text : String) : Option StreamError × OStream :=
  if s.good then
    let pad : String := String.mk (List.replicate (s.width - text.utf8ByteSize) s.fill)
    let padded : String := if s.left then text ++ pad else pad ++ text
    if s.deviceFails s.ops then
      OStream.setstate { s with width := 0, ops := s.ops + 1 } true false
    else
      (none, { s with written := s.written ++ padded, width := 0, ops := s.ops + 1 })
  else
    OStream.setstate s false true

/-- `os.put(c)`: one character, without padding; the width is left alone. -/
def OStream.put (s : OStream) (c : Char) : Option StreamError × OStream :=
  if s.good then
    if s.deviceFails s.ops then
      OStream.setstate { s with ops := s.ops + 1 } true false
    else
      (none, { s with written := s.written.push c, ops := s.ops + 1 })
  else
    OStream.setstate s false true

/-- `os.flush()`: the buffer is handed to the device; a failure sets `badbit`. -/
def OStream.flush (s : OStream) : Option StreamError × OStream :=
  if s.good then
    if s.deviceFails s.ops then
      OStream.setstate { s with ops := s.ops + 1 } true false
    else
      (none, { s with ops := s.ops + 1 })
  else
    (none, s)

/-- The next step of a chain of stream operations: it runs unless an exception
has left the chain. -/
def OStream.andThen (r : Option StreamError × OStream)
    (f : OStream → Option StreamError × OStream) : Option StreamError × OStream :=
  match r with
  | (some e, s) => (some e, s)
  | (none, s) => f s

/-- `os << std::endl`: `put` of a newline, then `flush`. -/
def OStream.endl (s : OStream) : Option StreamError × OStream :=
  OStream.andThen (s.put '\n') OStream.flush

/-- `ConsoleSink::log(entry)`: the chain of `<<` on `std::cout`, ended by
`std::endl`. -/
def ConsoleSink.log (entry : Log) (cout : OStream) : Option StreamError × OStream :=
  let r := cout.insert "["
  let r := OStream.andThen r (fun s => s.insert (logLevelToString entry.level))
  let r := OStream.andThen r (fun s => s.insert "] ")
  let r := OStream.andThen r (fun s => s.insert entry.timestamp)
  let r := OStream.andThen r (fun s => s.insert ": ")
  let r := OStream.andThen r (fun s => s.insert entry.message)
  OStream.andThen r OStream.endl

/-- Standard output at program start: nothing written, no error bit, no exception
enabled, no pending width, fill with blanks, and a device that does not fail. -/
def OStream.initial : OStream :=
  { written := "", state := { badbit := false, failbit := false, eofbit := false },
    exceptions := { badbit := false, failbit := false, eofbit := false },
    width := 0, fill := ' ', left := false, deviceFails := fun _ => false, ops := 0 }

/-- The uppercase form of a token: each letter replaced by its capital. -/
def upperToken (s : String) : String :=
  String.mk (s.toList.map Char.toUpper)

/-- A store holding `db` on which operation number `k` fails and no other does. -/
def Store.failingAt (db : Db) (k : Nat) : Store :=
  { db := db, fails := fun n => decide (n = k), ops := 0 }

/-- A database whose only table is `name`, existing and without rows, as a
`DELETE` of all rows or a creation by other means leaves it. -/
def Db.emptyTable (name : String) (nextId : Nat) : Db :=
  Db.fresh.set name { rows := [], nextId := nextId }

/-- Number of store operations a `setup` that meets no failure sends: opening the
transaction, create-if-absent, the count, the seed insertion when the table holds
no row, and the commit. -/
def DatabaseSink.setupOps (sink : DatabaseSink) (store : Store) : Nat :=
  if store.db.rows sink.table = [] then 5 else 4

/-! ## Properties of the level codec -/

/-- The `default` arm of the switch is taken exactly by the values that are not
the underlying value of an enumerator. -/
theorem logLevelSwitch_default (v : Int) (h : v < 0 ∨ 8 < v) :
    logLevelSwitch v = "unknown" := by
  unfold logLevelSwitch
  have h0 : v ≠ 0 := by omega
  have h1 : v ≠ 1 := by omega
  have h2 : v ≠ 2 := by omega
  have h3 : v ≠ 3 := by omega
  have h4 : v ≠ 4 := by omega
  have h5 : v ≠ 5 := by omega
  have h6 : v ≠ 6 := by omega
  have h7 : v ≠ 7 := by omega
  have h8 : v ≠ 8 := by omega
  simp [h0, h1, h2, h3, h4, h5, h6, h7, h8]

/-- C1: for every canonical token `t`, encoding the severity decoded from `t`
gives `t` back: `logLevelToString (logLevelFromString t) = t`. -/
theorem encode_decode_canonical (t : String) (h : t ∈ canonicalTokens) :
    logLevelToString (logLevelFromString t) = t := by
  simp only [canonicalTokens, List.mem_cons, List.mem_singleton, List.not_mem_nil,
    or_false] at h
  rcases h with rfl | rfl | rfl | rfl | rfl | rfl | rfl | rfl | rfl <;> decide

/-- Witness of C1 at the token `"warn"`. -/
theorem encode_decode_canonical_witness :
    "warn" ∈ canonicalTokens ∧ logLevelToString (logLevelFromString "warn") = "warn" :=
  ⟨by decide, encode_decode_canonical "warn" (by decide)⟩

/-- C2: `logLevelFromString` is a total function, and every string that is not
one of the nine canonical tokens is decoded to `Info`. -/
theorem decode_noncanonical (s : String) (h : s ∉ canonicalTokens) :
    logLevelFromString s = LogLevel.Info := by
  simp only [canonicalTokens, List.mem_cons, List.mem_singleton, List.not_mem_nil,
    or_false, not_or] at h
  obtain ⟨h1, h2, h3, h4, h5, h6, h7, h8, h9⟩ := h
  simp [logLevelFromString, h1, h2, h3, h4, h5, h6, h7, h8, h9]

/-- Witness of C2 at the non-canonical strings `"unknown-token"`. -/
theorem decode_noncanonical_witness :
    "unknown-token" ∉ canonicalTokens ∧
      logLevelFromString "unknown-token" = LogLevel.Info :=
  ⟨by decide, decode_noncanonical "unknown-token" (by decide)⟩

/-- C3: `logLevelToString` is injective on `LogLevel`: two severities with the
same token are the same severity. -/
theorem logLevelToString_injective (a b : LogLevel)
    (h : logLevelToString a = logLevelToString b) : a = b := by
  cases a <;> cases b <;> first | rfl | exact absurd h (by decide)

/-- Witness of C3 at `Warning`. -/
theorem logLevelToString_injective_witness :
    logLevelToString LogLevel.Warning = logLevelToString LogLevel.Warning ∧
      LogLevel.Warning = LogLevel.Warning :=
  ⟨rfl, logLevelToString_injective LogLevel.Warning LogLevel.Warning rfl⟩

/-- C4: `logLevelToString` sends the nine enumerators to `"emerg"`, `"alert"`,
`"crit"`, `"fatal"`, `"error"`, `"warn"`, `"notice"`, `"info"`, `"debug"`
respectively, and for every severity the result is a lowercase canonical token,
never the `"unknown"` of the `default` arm. -/
theorem logLevelToString_table :
    allLevels.map logLevelToString = canonicalTokens ∧
    logLevelToString LogLevel.Emergency = "emerg" ∧
    logLevelToString LogLevel.Alert = "alert" ∧
    logLevelToString LogLevel.Critical = "crit" ∧
    logLevelToString LogLevel.Fatal = "fatal" ∧
    logLevelToString LogLevel.Error = "error" ∧
    logLevelToString LogLevel.Warning = "warn" ∧
    logLevelToString LogLevel.Notice = "notice" ∧
    logLevelToString LogLevel.Info = "info" ∧
    logLevelToString LogLevel.Debug = "debug" ∧
    ∀ l : LogLevel, logLevelToString l ∈ canonicalTokens ∧
      isLowercase (logLevelToString l) = true ∧ logLevelToString l ≠ "unknown" := by
  refine ⟨by decide, by decide, by decide, by decide, by decide, by decide, by decide,
    by decide, by decide, by decide, ?_⟩
  intro l
  cases l <;> decide

/-! ## Properties of the dispatcher -/

section Dispatch

variable {ε σ : Type}

/-- The loop never touches the clock. -/
theorem forward_clock (impl : SinkImpl ε σ) (entry : Log) :
    ∀ (sinks : List Handle) (w : World σ),
      (Logger.forward impl entry sinks w).2.clock = w.clock := by
  intro sinks
  induction sinks with
  | nil => intro w; rfl
  | cons s rest ih =>
    intro w
    cases hs : (impl s entry w.state).1 with
    | none => simp [Logger.forward, World.invoke, hs, ih]
    | some err => simp [Logger.forward, World.invoke, hs]

/-- The calls made by the loop are those of a prefix of the registry, in order,
each with the one entry; the whole registry when nothing is raised. -/
theorem forward_calls_prefix (impl : SinkImpl ε σ) (entry : Log) :
    ∀ (sinks : List Handle) (w : World σ), ∃ k, k ≤ sinks.length ∧
      (Logger.forward impl entry sinks w).2.calls
        = w.calls ++ (sinks.take k).map (fun s => (s, entry)) ∧
      ((Logger.forward impl entry sinks w).1 = none → k = sinks.length) := by
  intro sinks
  induction sinks with
  | nil => intro w; exact ⟨0, by simp [Logger.forward]⟩
  | cons s rest ih =>
    intro w
    cases hs : (impl s entry w.state).1 with
    | none =>
      obtain ⟨k, hk, hcalls, hall⟩ := ih
        { w with calls := w.calls ++ [(s, entry)], state := (impl s entry w.state).2 }
      refine ⟨k + 1, by simpa using hk, ?_, ?_⟩
      · simp [Logger.forward, World.invoke, hs, hcalls]
      · intro hnone
        have := hall (by simpa [Logger.forward, World.invoke, hs] using hnone)
        simp [this]
    | some err =>
      exact ⟨1, by simp, by simp [Logger.forward, World.invoke, hs],
        by simp [Logger.forward, World.invoke, hs]⟩

/-- When nothing is raised the loop has called every sink, in registry order. -/
theorem forward_calls_ok (impl : SinkImpl ε σ) (entry : Log) (sinks : List Handle)
    (w : World σ) (hok : (Logger.forward impl entry sinks w).1 = none) :
    (Logger.forward impl entry sinks w).2.calls
      = w.calls ++ sinks.map (fun s => (s, entry)) := by
  obtain ⟨k, _, hcalls, hall⟩ := forward_calls_prefix impl entry sinks w
  rw [hcalls, hall hok, List.take_length]

/-- Successive `addSink` calls append the handles in the order of the calls. -/
theorem addSinks_sinks (hs : List Handle) :
    ∀ lg : Logger, (lg.addSinks hs).sinks = lg.sinks ++ hs := by
  induction hs with
  | nil => intro lg; simp [Logger.addSinks]
  | cons h rest ih =>
    intro lg
    have := ih (lg.addSink h)
    simpa [Logger.addSinks, Logger.addSink] using this

/-- The loop stops at the first sink that raises: the sinks before it have been
called in order, it has been called, and its exception leaves the loop. -/
theorem forward_first_raise (impl : SinkImpl ε σ) (entry : Log) :
    ∀ (sinks : List Handle) (w : World σ) (i : Nat) (err : ε) (hi : i < sinks.length),
      (∀ j (hj : j < sinks.length), j < i →
        (impl sinks[j] entry (runSinks impl entry (sinks.take j) w.state)).1 = none) →
      (impl sinks[i] entry (runSinks impl entry (sinks.take i) w.state)).1 = some err →
      Logger.forward impl entry sinks w =
        (some err,
          { clock := w.clock
            calls := w.calls ++ (sinks.take (i + 1)).map (fun s => (s, entry))
            state := (impl sinks[i] entry (runSinks impl entry (sinks.take i) w.state)).2 }) := by
  intro sinks
  induction sinks with
  | nil => intro w i err hi; simp at hi
  | cons s rest ih =>
    intro w i err hi hbefore hraise
    cases i with
    | zero =>
      have h0 : (impl s entry w.state).1 = some err := by simpa [runSinks] using hraise
      simp [Logger.forward, World.invoke, h0, runSinks]
    | succ i =>
      have h0 : (impl s entry w.state).1 = none := by
        simpa [runSinks] using hbefore 0 (by simp) (by omega)
      have hi1 : i < rest.length := by simpa using hi
      have := ih { w with calls := w.calls ++ [(s, entry)], state := (impl s entry w.state).2 }
        i err hi1
        (by
          intro j hj hji
          simpa [runSinks] using hbefore (j + 1) (by simpa using hj) (by omega))
        (by simpa [runSinks] using hraise)
      simp [Logger.forward, World.invoke, h0, this, runSinks]

/-- C5: a registry built by successive `addSink` calls of `s1, ..., sn` is
dispatched in that order: when no sink raises, one `log` call makes exactly the
calls `s1.log, ..., sn.log`, in this sequence, after the calls made before; so
registering A then B calls A before B. -/
theorem log_registration_order (hs : List Handle) (impl : SinkImpl ε σ)
    (message level : String) (w : World σ)
    (hok : ((Logger.empty.addSinks hs).log impl message level w).1 = none) :
    ((Logger.empty.addSinks hs).log impl message level w).2.calls
      = w.calls ++ hs.map (fun s =>
          (s, Log.new message (logLevelFromString level) (w.clock.readings w.clock.reads))) := by
  have hreg : (Logger.empty.addSinks hs).sinks = hs := by
    simpa [Logger.empty] using addSinks_sinks hs Logger.empty
  unfold Logger.log at hok ⊢
  rw [hreg] at hok ⊢
  exact forward_calls_ok impl _ hs _ hok

/-- C6: if the sink at position `i` of the registry is the first whose `log`
raises, `Logger::log` leaves with that same error, the sinks at positions up to
`i` have been called, in order, and no sink after position `i` has been called. -/
theorem log_fail_fast (lg : Logger) (impl : SinkImpl ε σ) (message level : String)
    (w : World σ) (i : Nat) (err : ε) (hi : i < lg.sinks.length)
    (hbefore : ∀ j (hj : j < lg.sinks.length), j < i →
      (impl lg.sinks[j] (Log.new message (logLevelFromString level) w.clock.time.1)
        (runSinks impl (Log.new message (logLevelFromString level) w.clock.time.1)
          (lg.sinks.take j) w.state)).1 = none)
    (hraise : (impl lg.sinks[i] (Log.new message (logLevelFromString level) w.clock.time.1)
        (runSinks impl (Log.new message (logLevelFromString level) w.clock.time.1)
          (lg.sinks.take i) w.state)).1 = some err) :
    (lg.log impl message level w).1 = some err ∧
    (lg.log impl message level w).2.calls
      = w.calls ++ (lg.sinks.take (i + 1)).map (fun s =>
          (s, Log.new message (logLevelFromString level) w.clock.time.1)) ∧
    (lg.log impl message level w).2.calls.length = w.calls.length + (i + 1) := by
  have h := forward_first_raise impl
    (Log.new message (logLevelFromString level) w.clock.time.1) lg.sinks
    { w with clock := w.clock.time.2 } i err hi hbefore hraise
  unfold Logger.log
  rw [h]
  refine ⟨rfl, rfl, ?_⟩
  simp
  omega

/-- `std::erase` keeps exactly the elements different from the value. -/
theorem stdErase_eq_filter (value : Handle) :
    ∀ c : List Handle, stdErase c value = c.filter (fun x => decide (x ≠ value)) := by
  intro c
  induction c with
  | nil => rfl
  | cons x rest ih =>
    by_cases hx : x = value
    · simp [stdErase, hx, ih]
    · simp [stdErase, hx, ih]

/-- Among the calls made for the sinks `l`, those on `h` are as many as the
occurrences of `h` in `l`. -/
theorem calls_on_count (entry : Log) (h : Handle) :
    ∀ l : List Handle,
      (((l.map (fun s => (s, entry))).filter (fun c => decide (c.1 = h))).length) = l.count h := by
  intro l
  induction l with
  | nil => rfl
  | cons x rest ih =>
    by_cases hx : x = h
    · simp [hx, ih]
    · have hx2 : ¬ (h = x) := fun e => hx e.symm
      simp [hx, ih, List.count_cons, hx2]

/-- C7: `removeSink h` leaves the registry with every occurrence of `h` removed
and the other handles in their original relative order; the next `log` does not
call `h` at all, and a registry without `h` is left unchanged. -/
theorem removeSink_removes_all (lg : Logger) (h : Handle) :
    (lg.removeSink h).sinks = lg.sinks.filter (fun x => decide (x ≠ h)) ∧
    h ∉ (lg.removeSink h).sinks ∧
    List.Sublist (lg.removeSink h).sinks lg.sinks ∧
    (∀ x, x ≠ h → (lg.removeSink h).sinks.count x = lg.sinks.count x) ∧
    (h ∉ lg.sinks → lg.removeSink h = lg) ∧
    (∀ (impl : SinkImpl ε σ) (message level : String) (w : World σ),
      ((lg.removeSink h).log impl message level w).2.invocations h = w.invocations h) := by
  have hf : (lg.removeSink h).sinks = lg.sinks.filter (fun x => decide (x ≠ h)) :=
    stdErase_eq_filter h lg.sinks
  have hnot : h ∉ (lg.removeSink h).sinks := by
    rw [hf]; simp
  refine ⟨hf, hnot, ?_, ?_, ?_, ?_⟩
  · rw [hf]; exact List.filter_sublist lg.sinks
  · intro x hx
    rw [hf, List.count_filter]
    simpa using hx
  · intro habs
    have : (lg.removeSink h).sinks = lg.sinks := by
      rw [hf, List.filter_eq_self]
      intro a ha
      have : a ≠ h := fun e => habs (e ▸ ha)
      simpa using this
    cases lg
    simpa [Logger.removeSink] using this
  · intro impl message level w
    obtain ⟨k, _, hcalls, _⟩ := forward_calls_prefix impl
      (Log.new message (logLevelFromString level) w.clock.time.1)
      (lg.removeSink h).sinks { w with clock := w.clock.time.2 }
    have hzero : ((lg.removeSink h).sinks.take k).count h = 0 :=
      List.count_eq_zero.mpr (fun hmem => hnot (List.mem_of_mem_take hmem))
    unfold Logger.log World.invocations
    rw [hcalls, List.filter_append, List.length_append, calls_on_count, hzero]
    rfl

/-- C8: `addSink h` appends `h` at the end of the registry whether or not `h` is
already there, so a sink registered `k` times is called exactly `k` times by a
`log` call in which nothing is raised. -/
theorem addSink_appends (lg : Logger) (h : Handle) :
    (lg.addSink h).sinks = lg.sinks ++ [h] ∧
    (lg.addSink h).sinks.count h = lg.sinks.count h + 1 ∧
    (∀ hs : List Handle, (Logger.empty.addSinks hs).sinks = hs) ∧
    (∀ (impl : SinkImpl ε σ) (message level : String) (w : World σ),
      (lg.log impl message level w).1 = none →
      (lg.log impl message level w).2.invocations h = w.invocations h + lg.sinks.count h) := by
  refine ⟨rfl, by simp [Logger.addSink], ?_, ?_⟩
  · intro hs
    simpa [Logger.empty] using addSinks_sinks hs Logger.empty
  · intro impl message level w hok
    have hcalls := forward_calls_ok impl
      (Log.new message (logLevelFromString level) w.clock.time.1)
      lg.sinks { w with clock := w.clock.time.2 } hok
    unfold Logger.log World.invocations
    rw [hcalls, List.filter_append, List.length_append, calls_on_count]

/-- C9: one call `log(m, t)` reads the clock once and every call it makes on a
sink carries the one entry with message `m`, level `logLevelFromString t` and,
as timestamp, the decimal string of that clock reading; when nothing is raised
every registered sink has received it. -/
theorem log_one_entry (lg : Logger) (impl : SinkImpl ε σ) (m t : String) (w : World σ) :
    (lg.log impl m t w).2.clock.reads = w.clock.reads + 1 ∧
    (lg.log impl m t w).2.clock.readings = w.clock.readings ∧
    (∃ k, k ≤ lg.sinks.length ∧
      (lg.log impl m t w).2.calls = w.calls ++ (lg.sinks.take k).map (fun s =>
        (s, { message := m, level := logLevelFromString t,
              timestamp := to_string (w.clock.readings w.clock.reads) }))) ∧
    ((lg.log impl m t w).1 = none →
      (lg.log impl m t w).2.calls = w.calls ++ lg.sinks.map (fun s =>
        (s, { message := m, level := logLevelFromString t,
              timestamp := to_string (w.clock.readings w.clock.reads) }))) := by
  have hclock := forward_clock impl (Log.new m (logLevelFromString t) w.clock.time.1)
    lg.sinks { w with clock := w.clock.time.2 }
  refine ⟨?_, ?_, ?_, ?_⟩
  · unfold Logger.log; rw [hclock]; rfl
  · unfold Logger.log; rw [hclock]; rfl
  · obtain ⟨k, hk, hcalls, _⟩ := forward_calls_prefix impl
      (Log.new m (logLevelFromString t) w.clock.time.1)
      lg.sinks { w with clock := w.clock.time.2 }
    exact ⟨k, hk, hcalls⟩
  · intro hok
    exact forward_calls_ok impl (Log.new m (logLevelFromString t) w.clock.time.1)
      lg.sinks { w with clock := w.clock.time.2 } hok

end Dispatch

/-- Witness of C5: sinks 1 then 2 registered, neither raises; sink 1 is called
first, sink 2 second, each with the entry built from the clock reading. -/
theorem log_registration_order_witness :
    ((Logger.empty.addSinks [1, 2]).log (recordingSinks 9) "hello" "warn" World.start).1 = none ∧
    ((Logger.empty.addSinks [1, 2]).log (recordingSinks 9) "hello" "warn" World.start).2.calls
      = [(1, { message := "hello", level := LogLevel.Warning, timestamp := "1700000000" }),
         (2, { message := "hello", level := LogLevel.Warning, timestamp := "1700000000" })] :=
  ⟨by decide,
    log_registration_order [1, 2] (recordingSinks 9) "hello" "warn" World.start (by decide)⟩

/-- Witness of C6: registry `[1, 2, 3]` where sink 2 raises; the call leaves with
its error after the calls of sinks 1 and 2, and sink 3 is not called. -/
theorem log_fail_fast_witness :
    ((Logger.mk [1, 2, 3]).log (recordingSinks 2) "x" "error" World.start).1 = some "boom" ∧
    ((Logger.mk [1, 2, 3]).log (recordingSinks 2) "x" "error" World.start).2.calls
      = [(1, { message := "x", level := LogLevel.Error, timestamp := "1700000000" }),
         (2, { message := "x", level := LogLevel.Error, timestamp := "1700000000" })] ∧
    ((Logger.mk [1, 2, 3]).log (recordingSinks 2) "x" "error" World.start).2.calls.length = 2 :=
  log_fail_fast (Logger.mk [1, 2, 3]) (recordingSinks 2) "x" "error" World.start 1 "boom"
    (by decide) (by decide) (by decide)

/-- Witness of C7: sink 1 registered twice around sink 2; after `removeSink 1`
the registry is `[2]` and the next `log` calls sink 1 zero times. -/
theorem removeSink_removes_all_witness :
    ((Logger.empty.addSinks [1, 2, 1]).removeSink 1).sinks = [2] ∧
    (((Logger.empty.addSinks [1, 2, 1]).removeSink 1).log (recordingSinks 9) "m" "info"
      World.start).2.invocations 1 = 0 ∧
    (Logger.empty.addSinks [2, 3]).removeSink 1 = Logger.empty.addSinks [2, 3] :=
  ⟨(removeSink_removes_all (ε := String) (σ := Nat) (Logger.empty.addSinks [1, 2, 1]) 1).1,
    (removeSink_removes_all (Logger.empty.addSinks [1, 2, 1]) 1).2.2.2.2.2
      (recordingSinks 9) "m" "info" World.start,
    (removeSink_removes_all (ε := String) (σ := Nat) (Logger.empty.addSinks [2, 3]) 1).2.2.2.2.1
      (by decide)⟩

/-- Witness of C8: sink 1 registered twice is called twice by one `log`. -/
theorem addSink_appends_witness :
    ((Logger.mk [1, 2]).addSink 1).sinks = [1, 2, 1] ∧
    ((Logger.mk [1, 2, 1]).log (recordingSinks 9) "m" "info" World.start).1 = none ∧
    ((Logger.mk [1, 2, 1]).log (recordingSinks 9) "m" "info" World.start).2.invocations 1 = 2 :=
  ⟨(addSink_appends (ε := String) (σ := Nat) (Logger.mk [1, 2]) 1).1, by decide,
    (addSink_appends (Logger.mk [1, 2, 1]) 1).2.2.2 (recordingSinks 9) "m" "info" World.start
      (by decide)⟩

/-- Witness of C9: two sinks, none raises; both receive the entry stamped with
the single clock reading `1700000000`. -/
theorem log_one_entry_witness :
    ((Logger.mk [1, 2]).log (recordingSinks 9) "m" "crit" World.start).1 = none ∧
    ((Logger.mk [1, 2]).log (recordingSinks 9) "m" "crit" World.start).2.calls
      = [(1, { message := "m", level := LogLevel.Critical, timestamp := "1700000000" }),
         (2, { message := "m", level := LogLevel.Critical, timestamp := "1700000000" })] :=
  ⟨by decide,
    (log_one_entry (Logger.mk [1, 2]) (recordingSinks 9) "m" "crit" World.start).2.2.2
      (by decide)⟩

/-! ## Properties of the persistent sink -/

/-- Reading back the name just written. -/
theorem Db.set_same (db : Db) (name : String) (tb : Table) : (db.set name tb) name = some tb := by
  simp [Db.set]

/-- Writing a name twice keeps the second table. -/
theorem Db.set_set (db : Db) (name : String) (a b : Table) :
    (db.set name a).set name b = db.set name b := by
  funext n
  by_cases hn : n = name <;> simp [Db.set, hn]

/-- The level written in the seed row. -/
theorem logLevelToString_notice : logLevelToString LogLevel.Notice = "notice" := by
  decide

/-- What a `setup` that returns normally has done, by the state of the table
before the call: nothing when it held a row; one seed row appended when it was
empty; the table created with one seed row when it was absent. -/
theorem setup_success (sink : DatabaseSink) (clock c1 : Clock) (store s1 : Store)
    (h : sink.setup clock store = (none, c1, s1)) :
    (∃ tb, store.db sink.table = some tb ∧ tb.rows ≠ [] ∧ s1.db = store.db ∧ c1 = clock) ∨
    (∃ tb, store.db sink.table = some tb ∧ tb.rows = [] ∧ c1 = clock.time.2 ∧
      s1.db = store.db.set sink.table
        { rows := [seedRow tb.nextId (clock.readings clock.reads)], nextId := tb.nextId + 1 }) ∨
    (store.db sink.table = none ∧ c1 = clock.time.2 ∧
      s1.db = store.db.set sink.table
        { rows := [seedRow 1 (clock.readings clock.reads)], nextId := 2 }) := by
  unfold DatabaseSink.setup at h
  simp only [Work.exec, Work.commit, Work.abort] at h
  cases hf0 : store.fault
  case true => simp [hf0] at h
  cases hf1 : store.tick.fault
  case true => simp [hf0, hf1] at h
  cases hf2 : store.tick.tick.fault
  case true => cases hdb : store.db sink.table <;> simp [hf0, hf1, hf2, hdb] at h
  rcases hdb : store.db sink.table with _ | tb
  · cases hf3 : store.tick.tick.tick.fault
    case true => simp [hf0, hf1, hf2, hdb, Db.set_same, hf3] at h
    cases hf4 : store.tick.tick.tick.tick.fault
    case true => simp [hf0, hf1, hf2, hdb, Db.set_same, hf3, hf4, SqlValue.toBigint] at h
    simp [hf0, hf1, hf2, hdb, Db.set_same, hf3, hf4, SqlValue.toBigint] at h
    obtain ⟨hc, hs⟩ := h
    subst hc hs
    refine Or.inr (Or.inr ⟨rfl, rfl, ?_⟩)
    simp [Db.set_set, seedRow, logLevelToString_notice, Clock.time]
  · by_cases hrows : tb.rows = []
    · have hf3 : store.tick.tick.tick.fault = false := by
        cases hf3 : store.tick.tick.tick.fault with
        | false => rfl
        | true => simp [hf0, hf1, hf2, hdb, hrows, hf3] at h
      have hf4 : store.tick.tick.tick.tick.fault = false := by
        cases hf4 : store.tick.tick.tick.tick.fault with
        | false => rfl
        | true => simp [hf0, hf1, hf2, hdb, hrows, hf3, hf4, SqlValue.toBigint] at h
      simp [hf0, hf1, hf2, hdb, hrows, hf3, hf4, SqlValue.toBigint] at h
      obtain ⟨hc, hs⟩ := h
      subst hc hs
      refine Or.inr (Or.inl ⟨tb, rfl, hrows, rfl, ?_⟩)
      simp [seedRow, logLevelToString_notice, Clock.time]
    · have hf3 : store.tick.tick.tick.fault = false := by
        cases hf3 : store.tick.tick.tick.fault with
        | false => rfl
        | true => simp [hf0, hf1, hf2, hdb, hrows, hf3] at h
      simp [hf0, hf1, hf2, hdb, hrows, hf3] at h
      obtain ⟨hc, hs⟩ := h
      subst hc hs
      exact Or.inl ⟨tb, rfl, hrows, rfl, rfl⟩

/-- After a `setup` that returns normally the table exists and holds a row. -/
theorem setup_success_nonempty (sink : DatabaseSink) (clock c1 : Clock) (store s1 : Store)
    (h : sink.setup clock store = (none, c1, s1)) :
    ∃ tb, s1.db sink.table = some tb ∧ tb.rows ≠ [] := by
  rcases setup_success sink clock c1 store s1 h with
    ⟨tb, htb, hrows, hdb, _⟩ | ⟨tb, _, _, _, hdb⟩ | ⟨_, _, hdb⟩
  · exact ⟨tb, by rw [hdb]; exact htb, hrows⟩
  · exact ⟨_, by rw [hdb]; exact Db.set_same _ _ _, by simp⟩
  · exact ⟨_, by rw [hdb]; exact Db.set_same _ _ _, by simp⟩

/-- C10: `setup` is idempotent: when both calls return normally, a second
`setup` right after a first leaves the database, hence the rows of the target
table, as the first left them, and from a store where the table is absent or
empty the two calls leave exactly one seed row. -/
theorem setup_idempotent (sink : DatabaseSink) (clock c1 c2 : Clock) (store s1 s2 : Store)
    (h1 : sink.setup clock store = (none, c1, s1))
    (h2 : sink.setup c1 s1 = (none, c2, s2)) :
    s2.db = s1.db ∧
    (s2.db sink.table).map Table.rows = (s1.db sink.table).map Table.rows ∧
    c2 = c1 ∧
    ((store.db sink.table).map Table.rows = none ∨
        (store.db sink.table).map Table.rows = some [] →
      ∃ id, (s2.db sink.table).map Table.rows
        = some [seedRow id (clock.readings clock.reads)]) := by
  obtain ⟨tb1, htb1, hrows1⟩ := setup_success_nonempty sink clock c1 store s1 h1
  have hsame : s2.db = s1.db ∧ c2 = c1 := by
    rcases setup_success sink c1 c2 s1 s2 h2 with
      ⟨_, _, _, hdb, hc⟩ | ⟨tb, htb, hrows, _, _⟩ | ⟨hnone, _, _⟩
    · exact ⟨hdb, hc⟩
    · rw [htb1] at htb
      cases htb
      exact absurd hrows hrows1
    · rw [htb1] at hnone
      cases hnone
  refine ⟨hsame.1, by rw [hsame.1], hsame.2, ?_⟩
  intro hstart
  rw [hsame.1]
  rcases setup_success sink clock c1 store s1 h1 with
    ⟨tb, htb, hrows, _, _⟩ | ⟨tb, _, _, _, hdb⟩ | ⟨_, _, hdb⟩
  · rcases hstart with hnone | hempty
    · simp [htb] at hnone
    · simp [htb] at hempty
      exact absurd hempty hrows
  · exact ⟨tb.nextId, by rw [hdb, Db.set_same]; rfl⟩
  · exact ⟨1, by rw [hdb, Db.set_same]; rfl⟩

/-- Witness of C10: on a store without the table, two `setup` calls in a row both
return normally and leave one seed row, stamped by the first call. -/
theorem setup_idempotent_witness :
    ((DatabaseSink.mk "logs").setup Clock.test (Store.reliable Db.fresh)).1 = none ∧
    ((DatabaseSink.mk "logs").setup
      ((DatabaseSink.mk "logs").setup Clock.test (Store.reliable Db.fresh)).2.1
      ((DatabaseSink.mk "logs").setup Clock.test (Store.reliable Db.fresh)).2.2).1 = none ∧
    (((DatabaseSink.mk "logs").setup
      ((DatabaseSink.mk "logs").setup Clock.test (Store.reliable Db.fresh)).2.1
      ((DatabaseSink.mk "logs").setup Clock.test (Store.reliable Db.fresh)).2.2).2.2.db
        "logs").map Table.rows
      = (((DatabaseSink.mk "logs").setup Clock.test (Store.reliable Db.fresh)).2.2.db
        "logs").map Table.rows ∧
    (((DatabaseSink.mk "logs").setup
      ((DatabaseSink.mk "logs").setup Clock.test (Store.reliable Db.fresh)).2.1
      ((DatabaseSink.mk "logs").setup Clock.test (Store.reliable Db.fresh)).2.2).2.2.db
        "logs").map Table.rows
      = some [seedRow 1 1700000000] :=
  ⟨by decide, by decide,
    (setup_idempotent (DatabaseSink.mk "logs") Clock.test _ _ (Store.reliable Db.fresh) _ _
      rfl rfl).2.1,
    by decide⟩

/-! ## Further properties of the codec, the console sink and the default level -/

/-- C19: `logLevelFromString` is a left inverse of `logLevelToString`: decoding
the token of a severity gives that severity back, for each of the nine. -/
theorem decode_encode (l : LogLevel) : logLevelFromString (logLevelToString l) = l := by
  cases l <;> decide

/-- C16: decoding is exact and case-sensitive: the uppercase form of every
canonical token matches no comparison and is decoded by the final `return` to
`Info` (`"ERROR"` gives `Info`, not `Error`); so a `log` called with the default
level `"INFO"` only delivers entries of level `Info`. -/
theorem uppercase_decodes_to_info :
    (∀ t, t ∈ canonicalTokens →
      upperToken t ∉ canonicalTokens ∧ logLevelFromString (upperToken t) = LogLevel.Info) ∧
    logLevelFromString "ERROR" = LogLevel.Info ∧
    logLevelFromString "ERROR" ≠ LogLevel.Error ∧
    Logger.defaultLevel ∉ canonicalTokens ∧
    (∀ {ε σ : Type} (lg : Logger) (impl : SinkImpl ε σ) (m : String) (w : World σ),
      ∃ k, k ≤ lg.sinks.length ∧
        (lg.log impl m Logger.defaultLevel w).2.calls
          = w.calls ++ (lg.sinks.take k).map (fun s =>
              (s, { message := m, level := LogLevel.Info,
                    timestamp := to_string (w.clock.readings w.clock.reads) })) ∧
        ((lg.log impl m Logger.defaultLevel w).1 = none → k = lg.sinks.length)) := by
  refine ⟨?_, by decide, by decide, by decide, ?_⟩
  · intro t ht
    simp only [canonicalTokens, List.mem_cons, List.mem_singleton, List.not_mem_nil,
      or_false] at ht
    rcases ht with rfl | rfl | rfl | rfl | rfl | rfl | rfl | rfl | rfl <;> decide
  · intro ε σ lg impl m w
    exact forward_calls_prefix impl
      (Log.new m (logLevelFromString Logger.defaultLevel) w.clock.time.1)
      lg.sinks { w with clock := w.clock.time.2 }

/-- Witness of C16: the token `"warn"` in capitals, and a `log` with the default
level on two recording sinks. -/
theorem uppercase_decodes_to_info_witness :
    "warn" ∈ canonicalTokens ∧ upperToken "warn" = "WARN" ∧
    logLevelFromString (upperToken "warn") = LogLevel.Info ∧
    ((Logger.mk [1, 2]).log (recordingSinks 9) "m" Logger.defaultLevel World.start).2.calls
      = [(1, { message := "m", level := LogLevel.Info, timestamp := "1700000000" }),
         (2, { message := "m", level := LogLevel.Info, timestamp := "1700000000" })] :=
  ⟨by decide, by decide, (uppercase_decodes_to_info.1 "warn" (by decide)).2, by decide⟩

/-! ## Further properties of the persistent sink -/

/-- Sending an operation does not touch the committed contents. -/
theorem Store.tick_db (s : Store) : s.tick.db = s.db := rfl

/-- A `setup` that throws leaves the committed contents as they were. -/
theorem setup_failure (sink : DatabaseSink) (clock c1 : Clock) (store s1 : Store)
    (e : StoreError) (h : sink.setup clock store = (some e, c1, s1)) :
    s1.db = store.db := by
  unfold DatabaseSink.setup at h
  simp only [Work.exec, Work.commit, Work.abort] at h
  cases hf0 : store.fault with
  | true =>
    simp [hf0] at h
    rw [← h.2.2]; rfl
  | false =>
    cases hf1 : store.tick.fault with
    | true =>
      simp [hf0, hf1] at h
      rw [← h.2.2]; rfl
    | false =>
      cases hf2 : store.tick.tick.fault with
      | true =>
        cases hdb : store.db sink.table <;> simp [hf0, hf1, hf2, hdb] at h <;>
          (rw [← h.2.2]; rfl)
      | false =>
        rcases hdb : store.db sink.table with _ | tb
        · cases hf3 : store.tick.tick.tick.fault <;>
            cases hf4 : store.tick.tick.tick.tick.fault <;>
            simp [hf0, hf1, hf2, hdb, Db.set_same, hf3, hf4, SqlValue.toBigint] at h <;>
            (rw [← h.2.2]; rfl)
        · by_cases hrows : tb.rows = []
          · cases hf3 : store.tick.tick.tick.fault <;>
              cases hf4 : store.tick.tick.tick.tick.fault <;>
              simp [hf0, hf1, hf2, hdb, hrows, hf3, hf4, SqlValue.toBigint] at h <;>
              (rw [← h.2.2]; rfl)
          · cases hf3 : store.tick.tick.tick.fault <;>
              simp [hf0, hf1, hf2, hdb, hrows, hf3] at h
            rw [← h.2.2]; rfl

/-- What a `DatabaseSink::log` that returns normally has done: the table was
there, the timestamp text was read as a `BIGINT`, and one row was appended. -/
theorem log_success (sink : DatabaseSink) (entry : Log) (store s1 : Store)
    (h : sink.log entry store = (none, s1)) :
    ∃ tb ts, store.db sink.table = some tb ∧ parseBigint entry.timestamp = some ts ∧
      s1.db = store.db.set sink.table
        { rows := tb.rows ++ [{ id := tb.nextId, level := logLevelToString entry.level,
                                timestamp := ts, message := entry.message }]
          nextId := tb.nextId + 1 } := by
  unfold DatabaseSink.log at h
  simp only [Work.exec, Work.commit, Work.abort] at h
  cases hf0 : store.fault with
  | true => simp [hf0] at h
  | false =>
    cases hf1 : store.tick.fault with
    | true => simp [hf0, hf1] at h
    | false =>
      rcases hdb : store.db sink.table with _ | tb
      · simp [hf0, hf1, hdb] at h
      · rcases hts : parseBigint entry.timestamp with _ | ts
        · simp [hf0, hf1, hdb, hts, SqlValue.toBigint] at h
        · cases hf2 : store.tick.tick.fault with
          | true => simp [hf0, hf1, hdb, hts, hf2, SqlValue.toBigint] at h
          | false =>
            simp [hf0, hf1, hdb, hts, hf2, SqlValue.toBigint] at h
            exact ⟨tb, ts, rfl, rfl, by rw [← h]⟩

/-- Rows of a table just written. -/
theorem Db.rows_set (db : Db) (name : String) (tb : Table) :
    (db.set name tb).rows name = tb.rows := by
  simp [Db.rows, Db.set]

/-- Rows of a table that is there. -/
theorem Db.rows_some (db : Db) (name : String) (tb : Table) (h : db name = some tb) :
    db.rows name = tb.rows := by
  simp [Db.rows, h]

/-- Rows of a table that is absent. -/
theorem Db.rows_none (db : Db) (name : String) (h : db name = none) :
    db.rows name = [] := by
  simp [Db.rows, h]

/-- The rows of the target table after a `setup` that returns normally: those
before the call, followed by one seed row exactly when there were none. -/
theorem setup_rows (sink : DatabaseSink) (clock c1 : Clock) (store s1 : Store)
    (h : sink.setup clock store = (none, c1, s1)) :
    (store.db.rows sink.table ≠ [] ∧ s1.db = store.db) ∨
    (store.db.rows sink.table = [] ∧
      ∃ id, s1.db.rows sink.table = [seedRow id (clock.readings clock.reads)]) := by
  rcases setup_success sink clock c1 store s1 h with
    ⟨tb, htb, hrows, hdb, _⟩ | ⟨tb, htb, hrows, _, hdb⟩ | ⟨hnone, _, hdb⟩
  · exact Or.inl ⟨by rw [Db.rows_some _ _ _ htb]; exact hrows, hdb⟩
  · exact Or.inr ⟨by rw [Db.rows_some _ _ _ htb]; exact hrows,
      tb.nextId, by rw [hdb, Db.rows_set]⟩
  · exact Or.inr ⟨Db.rows_none _ _ hnone, 1, by rw [hdb, Db.rows_set]⟩

/-- C11: `setup` inserts a seed row if and only if the row count of the target
table, taken after create-if-absent, is zero: a call that returns normally on a
count of zero has inserted exactly one row, with level `"notice"`, the clock
reading as timestamp and the fixed message; on a table holding a row no call
inserts anything. -/
theorem setup_seeds_iff_empty (sink : DatabaseSink) (clock : Clock) (store : Store) :
    (∀ c1 s1, sink.setup clock store = (none, c1, s1) →
      ((store.db.rows sink.table).length = 0 ↔
        ∃ id, s1.db.rows sink.table
          = store.db.rows sink.table ++
            [{ id := id, level := "notice", timestamp := clock.readings clock.reads,
               message := "Initial setup complete." }]) ∧
      ((store.db.rows sink.table).length ≠ 0 ↔
        s1.db.rows sink.table = store.db.rows sink.table)) ∧
    (∀ o c1 s1, sink.setup clock store = (o, c1, s1) →
      (store.db.rows sink.table).length ≠ 0 → s1.db = store.db) := by
  constructor
  · intro c1 s1 h
    rcases setup_rows sink clock c1 store s1 h with ⟨hne, hdb⟩ | ⟨hnil, id, hrows⟩
    · have hlen : (store.db.rows sink.table).length ≠ 0 := by
        simpa [List.length_eq_zero] using hne
      refine ⟨⟨fun h0 => absurd h0 hlen, ?_⟩, ⟨fun _ => by rw [hdb], fun _ => hlen⟩⟩
      rintro ⟨id, hid⟩
      rw [hdb] at hid
      have := congrArg List.length hid
      simp at this
    · have hlen : (store.db.rows sink.table).length = 0 := by simp [hnil]
      refine ⟨⟨fun _ => ⟨id, by rw [hrows, hnil]; rfl⟩, fun _ => hlen⟩,
        ⟨fun hne => absurd hlen hne, ?_⟩⟩
      intro hsame
      rw [hrows, hnil] at hsame
      cases hsame
  · intro o c1 s1 h hlen
    cases o with
    | some e => exact setup_failure sink clock c1 store s1 e h
    | none =>
      rcases setup_rows sink clock c1 store s1 h with ⟨_, hdb⟩ | ⟨hnil, _⟩
      · exact hdb
      · exact absurd (by simp [hnil]) hlen

/-- Witness of C11: on a store without the table the call inserts the seed row;
on the store it leaves, a second call inserts nothing. -/
theorem setup_seeds_iff_empty_witness :
    ((DatabaseSink.mk "logs").setup Clock.test (Store.reliable Db.fresh)).1 = none ∧
    ((Store.reliable Db.fresh).db.rows "logs").length = 0 ∧
    (∃ id, ((DatabaseSink.mk "logs").setup Clock.test (Store.reliable Db.fresh)).2.2.db.rows
        "logs"
      = (Store.reliable Db.fresh).db.rows "logs" ++
        [{ id := id, level := "notice", timestamp := 1700000000,
           message := "Initial setup complete." }]) ∧
    ((DatabaseSink.mk "logs").setup Clock.test
      ((DatabaseSink.mk "logs").setup Clock.test (Store.reliable Db.fresh)).2.2).2.2.db
      = ((DatabaseSink.mk "logs").setup Clock.test (Store.reliable Db.fresh)).2.2.db :=
  ⟨by decide, by decide,
    (((setup_seeds_iff_empty (DatabaseSink.mk "logs") Clock.test (Store.reliable Db.fresh)).1
      _ _ rfl).1).mp (by decide),
    (setup_seeds_iff_empty (DatabaseSink.mk "logs") Clock.test
      ((DatabaseSink.mk "logs").setup Clock.test (Store.reliable Db.fresh)).2.2).2
      _ _ _ rfl (by decide)⟩

/-- C15, counterexample: `setup` run on a store where the target table already
exists, with no row in it: the table is there before the call, yet the call
inserts the seed row. -/
theorem setup_seeds_existing_empty_table :
    (Store.reliable (Db.emptyTable "logs" 5)).db "logs" = some { rows := [], nextId := 5 } ∧
    ((DatabaseSink.mk "logs").setup Clock.test (Store.reliable (Db.emptyTable "logs" 5))).1
      = none ∧
    ((DatabaseSink.mk "logs").setup Clock.test
      (Store.reliable (Db.emptyTable "logs" 5))).2.2.db.rows "logs"
      = [{ id := 5, level := "notice", timestamp := 1700000000,
           message := "Initial setup complete." }] := by
  decide

/-- C20: neither `setup` nor `DatabaseSink::log` deletes or changes a row of the
target table: after a call that returns normally the rows from before are all
there, unchanged and in the same order, followed by at most one new row for
`setup` and exactly one for `log`; the row count never decreases. -/
theorem rows_preserved (sink : DatabaseSink) (store : Store) :
    (∀ clock c1 s1, sink.setup clock store = (none, c1, s1) →
      ∃ added, s1.db.rows sink.table = store.db.rows sink.table ++ added ∧
        added.length ≤ 1 ∧
        (store.db.rows sink.table).length ≤ (s1.db.rows sink.table).length) ∧
    (∀ entry s1, sink.log entry store = (none, s1) →
      ∃ row, s1.db.rows sink.table = store.db.rows sink.table ++ [row] ∧
        (s1.db.rows sink.table).length = (store.db.rows sink.table).length + 1) := by
  constructor
  · intro clock c1 s1 h
    rcases setup_rows sink clock c1 store s1 h with ⟨_, hdb⟩ | ⟨hnil, id, hrows⟩
    · exact ⟨[], by rw [hdb]; simp, by simp, by rw [hdb]⟩
    · exact ⟨[seedRow id (clock.readings clock.reads)], by rw [hrows, hnil]; rfl, by simp,
        by rw [hrows, hnil]; simp⟩
  · intro entry s1 h
    obtain ⟨tb, ts, htb, _, hdb⟩ := log_success sink entry store s1 h
    refine ⟨_, by rw [hdb, Db.rows_set, Db.rows_some _ _ _ htb], ?_⟩
    rw [hdb, Db.rows_set, Db.rows_some _ _ _ htb]
    simp

/-- Witness of C20: `setup` on a store without the table, then a `log` on the
store it leaves: the seed row stays first and unchanged under the new row. -/
theorem rows_preserved_witness :
    (∃ added, ((DatabaseSink.mk "logs").setup Clock.test
        (Store.reliable Db.fresh)).2.2.db.rows "logs"
      = (Store.reliable Db.fresh).db.rows "logs" ++ added ∧ added.length ≤ 1 ∧
        ((Store.reliable Db.fresh).db.rows "logs").length ≤
          (((DatabaseSink.mk "logs").setup Clock.test
            (Store.reliable Db.fresh)).2.2.db.rows "logs").length) ∧
    ((DatabaseSink.mk "logs").log (Log.new "hello" LogLevel.Info 1700000005)
        ((DatabaseSink.mk "logs").setup Clock.test (Store.reliable Db.fresh)).2.2).2.db.rows
        "logs"
      = [{ id := 1, level := "notice", timestamp := 1700000000,
           message := "Initial setup complete." },
         { id := 2, level := "info", timestamp := 1700000005, message := "hello" }] :=
  ⟨(rows_preserved (DatabaseSink.mk "logs") (Store.reliable Db.fresh)).1 Clock.test _ _ rfl,
    by decide⟩

/-- The stream after a string went through unpadded. -/
theorem OStream.insert_ok (s : OStream) (text : String) (hg : s.good = true)
    (hw : s.width ≤ text.utf8ByteSize) (hd : s.deviceFails s.ops = false) :
    s.insert text
      = (none, { s with written := s.written ++ text, width := 0, ops := s.ops + 1 }) := by
  have hpad : String.mk (List.replicate (s.width - text.utf8ByteSize) s.fill) = "" := by
    rw [Nat.sub_eq_zero_of_le hw]; rfl
  unfold OStream.insert
  simp [hg, hd, hpad]

/-- The stream after `std::endl` on a good stream whose device does not fail. -/
theorem OStream.endl_ok (s : OStream) (hg : s.good = true)
    (hd0 : s.deviceFails s.ops = false) (hd1 : s.deviceFails (s.ops + 1) = false) :
    s.endl = (none, { s with written := s.written ++ "\n", ops := s.ops + 2 }) := by
  have hg1 : OStream.good { s with written := s.written.push '\n', ops := s.ops + 1 } = true := hg
  unfold OStream.endl OStream.put
  simp only [hg, hd0, if_true, Bool.false_eq_true, if_false, OStream.andThen]
  unfold OStream.flush
  simp only [hg1, hd1, if_true, Bool.false_eq_true, if_false]
  rfl

/-- One string of the chain on a good stream: it goes through unpadded when the
pending width does not exceed its length, and the stream stays good, with no
pending width, for the operations that follow. -/
theorem OStream.insert_step (s : OStream) (text : String) (n : Nat)
    (hg : s.good = true) (hw : s.width ≤ text.utf8ByteSize)
    (hd : ∀ i, i < n + 1 → s.deviceFails (s.ops + i) = false) :
    ∃ s1, s.insert text = (none, s1) ∧ s1.written = s.written ++ text ∧ s1.width = 0 ∧
      s1.good = true ∧ ∀ i, i < n → s1.deviceFails (s1.ops + i) = false := by
  refine ⟨_, OStream.insert_ok s text hg hw (by simpa using hd 0 (by omega)),
    rfl, rfl, hg, ?_⟩
  intro i hi
  have := hd (i + 1) (by omega)
  simpa [Nat.add_assoc, Nat.add_comm 1 i] using this

/-- C14, amended: on a `std::cout` that is good, has no pending field width above
one character and whose device does not fail, `ConsoleSink::log` adds to standard
output exactly the text `[<token>] <timestamp>: <message>` followed by one
newline, and nothing else, for every entry. -/
theorem consoleSink_line (entry : Log) (cout : OStream)
    (hgood : cout.good = true) (hwidth : cout.width ≤ 1)
    (hdev : ∀ i, i < 9 → cout.deviceFails (cout.ops + i) = false) :
    (ConsoleSink.log entry cout).1 = none ∧
    (ConsoleSink.log entry cout).2.written
      = cout.written ++ ("[" ++ logLevelToString entry.level ++ "] " ++ entry.timestamp
          ++ ": " ++ entry.message ++ "\n") ∧
    (ConsoleSink.log entry cout).2.good = true := by
  obtain ⟨s1, h1, w1, z1, g1, d1⟩ :=
    OStream.insert_step cout "[" 8 hgood (le_of_le_of_eq hwidth (by decide)) hdev
  obtain ⟨s2, h2, w2, z2, g2, d2⟩ :=
    OStream.insert_step s1 (logLevelToString entry.level) 7 g1 (by omega) d1
  obtain ⟨s3, h3, w3, z3, g3, d3⟩ := OStream.insert_step s2 "] " 6 g2 (by omega) d2
  obtain ⟨s4, h4, w4, z4, g4, d4⟩ := OStream.insert_step s3 entry.timestamp 5 g3 (by omega) d3
  obtain ⟨s5, h5, w5, z5, g5, d5⟩ := OStream.insert_step s4 ": " 4 g4 (by omega) d4
  obtain ⟨s6, h6, w6, z6, g6, d6⟩ := OStream.insert_step s5 entry.message 3 g5 (by omega) d5
  have h7 := OStream.endl_ok s6 g6 (by simpa using d6 0 (by omega)) (d6 1 (by omega))
  have hrun : ConsoleSink.log entry cout
      = (none, { s6 with written := s6.written ++ "\n", ops := s6.ops + 2 }) := by
    simp only [ConsoleSink.log, h1, h2, h3, h4, h5, h6, h7, OStream.andThen]
  rw [hrun]
  refine ⟨rfl, ?_, g6⟩
  show s6.written ++ "\n" = _
  rw [w6, w5, w4, w3, w2, w1]
  simp only [String.append_assoc]

/-- C14, counterexample: the entry `info` / `"17"` / `"m"` logged on a good
`std::cout` that has a pending field width of 6 puts five blanks in front of the
line, and logged on a `std::cout` whose `failbit` is set writes nothing. -/
theorem consoleSink_line_fails :
    (ConsoleSink.log { message := "m", level := LogLevel.Info, timestamp := "17" }
      { OStream.initial with width := 6 }).2.written = "     [info] 17: m\n" ∧
    (ConsoleSink.log { message := "m", level := LogLevel.Info, timestamp := "17" }
      { OStream.initial with width := 6 }).2.written ≠ "[info] 17: m\n" ∧
    (ConsoleSink.log { message := "m", level := LogLevel.Info, timestamp := "17" }
      { OStream.initial with
        state := { badbit := false, failbit := true, eofbit := false } }).2.written = "" := by
  decide

/-- Witness of C14: the entry built by `Log::Log` for `"hello"`, `Warning` and the
time `1700000000`, logged on standard output as the program finds it at start. -/
theorem consoleSink_line_witness :
    (ConsoleSink.log (Log.new "hello" LogLevel.Warning 1700000000) OStream.initial).1 = none ∧
    (ConsoleSink.log (Log.new "hello" LogLevel.Warning 1700000000) OStream.initial).2.written
      = "[warn] 1700000000: hello\n" ∧
    (ConsoleSink.log (Log.new "hello" LogLevel.Warning 1700000000) OStream.initial).2.good
      = true :=
  consoleSink_line (Log.new "hello" LogLevel.Warning 1700000000) OStream.initial
    (by decide) (by decide) (fun _ _ => rfl)

/-- The first store operation of `setup` that fails makes `setup` throw the error
of that operation, and the committed contents stay as they were. -/
theorem setup_first_failure (sink : DatabaseSink) (clock : Clock) (store : Store) (k : Nat)
    (hk : k < sink.setupOps store)
    (hfirst : ∀ i, i < k → store.fails (store.ops + i) = false)
    (hfail : store.fails (store.ops + k) = true) :
    (sink.setup clock store).1 = some (StoreError.failed (store.ops + k)) ∧
    (sink.setup clock store).2.2.db = store.db := by
  have hk5 : k < 5 := by
    unfold DatabaseSink.setupOps at hk
    split at hk <;> omega
  have hf0 : 0 < k → store.fault = false := fun h => hfirst 0 h
  have hf1 : 1 < k → store.tick.fault = false := fun h => hfirst 1 h
  have hf2 : 2 < k → store.tick.tick.fault = false := fun h => hfirst 2 h
  have hf3 : 3 < k → store.tick.tick.tick.fault = false := fun h => hfirst 3 h
  unfold DatabaseSink.setup
  simp only [Work.exec, Work.commit, Work.abort]
  interval_cases k
  · have h0 : store.fault = true := hfail
    simp [h0]
    rfl
  · have h0 := hf0 (by decide)
    have h1 : store.tick.fault = true := hfail
    simp [h0, h1]
    exact ⟨rfl, rfl⟩
  · have h0 := hf0 (by decide)
    have h1 := hf1 (by decide)
    have h2 : store.tick.tick.fault = true := hfail
    cases hdb : store.db sink.table <;> simp [h0, h1, h2, hdb] <;> exact ⟨rfl, rfl⟩
  · have h0 := hf0 (by decide)
    have h1 := hf1 (by decide)
    have h2 := hf2 (by decide)
    have h3 : store.tick.tick.tick.fault = true := hfail
    rcases hdb : store.db sink.table with _ | tb
    · simp [h0, h1, h2, h3, hdb, Db.set_same]
      exact ⟨rfl, rfl⟩
    · by_cases hrows : tb.rows = []
      · simp [h0, h1, h2, h3, hdb, hrows]
        exact ⟨rfl, rfl⟩
      · simp [h0, h1, h2, h3, hdb, hrows]
        exact ⟨rfl, rfl⟩
  · have h0 := hf0 (by decide)
    have h1 := hf1 (by decide)
    have h2 := hf2 (by decide)
    have h3 := hf3 (by decide)
    have h4 : store.tick.tick.tick.tick.fault = true := hfail
    rcases hdb : store.db sink.table with _ | tb
    · simp [h0, h1, h2, h3, h4, hdb, Db.set_same, SqlValue.toBigint]
      exact ⟨rfl, rfl⟩
    · have hrows : tb.rows = [] := by
        unfold DatabaseSink.setupOps at hk
        rw [Db.rows_some _ _ _ hdb] at hk
        by_contra hne
        simp [hne] at hk
      simp [h0, h1, h2, h3, h4, hdb, hrows, SqlValue.toBigint]
      exact ⟨rfl, rfl⟩

/-- When none of the store operations of `setup` fails, `setup` returns normally. -/
theorem setup_reliable (sink : DatabaseSink) (clock : Clock) (store : Store)
    (hrel : store.reliableFor (sink.setupOps store)) :
    (sink.setup clock store).1 = none := by
  have hn : 4 ≤ sink.setupOps store := by
    unfold DatabaseSink.setupOps
    split <;> omega
  have h0 : store.fault = false := by simpa using hrel 0 (by omega)
  have h1 : store.tick.fault = false := hrel 1 (by omega)
  have h2 : store.tick.tick.fault = false := hrel 2 (by omega)
  have h3 : store.tick.tick.tick.fault = false := hrel 3 (by omega)
  unfold DatabaseSink.setup
  simp only [Work.exec, Work.commit, Work.abort]
  rcases hdb : store.db sink.table with _ | tb
  · have h4 : store.tick.tick.tick.tick.fault = false :=
      hrel 4 (by simp [DatabaseSink.setupOps, Db.rows, hdb])
    simp [h0, h1, h2, h3, h4, hdb, Db.set_same, SqlValue.toBigint]
  · by_cases hrows : tb.rows = []
    · have h4 : store.tick.tick.tick.tick.fault = false :=
        hrel 4 (by simp [DatabaseSink.setupOps, Db.rows, hdb, hrows])
      simp [h0, h1, h2, h3, h4, hdb, hrows, SqlValue.toBigint]
    · simp [h0, h1, h2, h3, hdb, hrows]

/-- A failure of any of the store operations of `setup` makes `setup` throw, with
the error of the first operation that fails, and nothing is committed. -/
theorem setup_any_failure (sink : DatabaseSink) (clock : Clock) (store : Store) (j : Nat)
    (hj : j < sink.setupOps store) (hfail : store.fails (store.ops + j) = true) :
    ∃ k, k ≤ j ∧ store.fails (store.ops + k) = true ∧
      (sink.setup clock store).1 = some (StoreError.failed (store.ops + k)) ∧
      (sink.setup clock store).2.2.db = store.db := by
  have hex : ∃ k, store.fails (store.ops + k) = true := ⟨j, hfail⟩
  have hle : Nat.find hex ≤ j := Nat.find_min' hex hfail
  have hfirst : ∀ i, i < Nat.find hex → store.fails (store.ops + i) = false := by
    intro i hi
    have := Nat.find_min hex hi
    simpa using this
  obtain ⟨he, hdb⟩ := setup_first_failure sink clock store (Nat.find hex)
    (by omega) hfirst (Nat.find_spec hex)
  exact ⟨Nat.find hex, hle, Nat.find_spec hex, he, hdb⟩

/-- C18: `setup` is atomic: create-if-absent, the count and the conditional seed
run in one transaction, committed last. If any of the store operations of the
call fails, the error of the first failing one leaves `setup` and the committed
contents are those before the call (no table created, no seed row inserted);
when none fails, `setup` returns normally; and the contents change only in a
call that returns normally. -/
theorem setup_atomic (sink : DatabaseSink) (clock : Clock) (store : Store) :
    (∀ j, j < sink.setupOps store → store.fails (store.ops + j) = true →
      ∃ k, k ≤ j ∧ store.fails (store.ops + k) = true ∧
        (sink.setup clock store).1 = some (StoreError.failed (store.ops + k)) ∧
        (sink.setup clock store).2.2.db = store.db ∧
        (sink.setup clock store).2.2.db sink.table = store.db sink.table) ∧
    (store.reliableFor (sink.setupOps store) → (sink.setup clock store).1 = none) ∧
    (∀ e c1 s1, sink.setup clock store = (some e, c1, s1) →
      s1.db = store.db ∧ s1.db.rows sink.table = store.db.rows sink.table) ∧
    (∀ o c1 s1, sink.setup clock store = (o, c1, s1) → s1.db ≠ store.db → o = none) := by
  refine ⟨?_, setup_reliable sink clock store, ?_, ?_⟩
  · intro j hj hfail
    obtain ⟨k, hkj, hk, he, hdb⟩ := setup_any_failure sink clock store j hj hfail
    exact ⟨k, hkj, hk, he, hdb, by rw [hdb]⟩
  · intro e c1 s1 h
    have hdb := setup_failure sink clock c1 store s1 e h
    exact ⟨hdb, by rw [hdb]⟩
  · intro o c1 s1 h hne
    cases o with
    | none => rfl
    | some e => exact absurd (setup_failure sink clock c1 store s1 e h) hne

/-- Witness of C18: on a store without the table, the seed insertion (operation 3)
fails: `setup` throws that error and the table is still absent; so for a failure
of each of the five operations in turn; and without failure it returns normally. -/
theorem setup_atomic_witness :
    (3 < (DatabaseSink.mk "logs").setupOps (Store.failingAt Db.fresh 3) ∧
      (Store.failingAt Db.fresh 3).fails ((Store.failingAt Db.fresh 3).ops + 3) = true) ∧
    (∃ k, k ≤ 3 ∧ (Store.failingAt Db.fresh 3).fails ((Store.failingAt Db.fresh 3).ops + k) = true ∧
      ((DatabaseSink.mk "logs").setup Clock.test (Store.failingAt Db.fresh 3)).1
        = some (StoreError.failed ((Store.failingAt Db.fresh 3).ops + k)) ∧
      ((DatabaseSink.mk "logs").setup Clock.test (Store.failingAt Db.fresh 3)).2.2.db
        = (Store.failingAt Db.fresh 3).db ∧
      ((DatabaseSink.mk "logs").setup Clock.test (Store.failingAt Db.fresh 3)).2.2.db "logs"
        = (Store.failingAt Db.fresh 3).db "logs") ∧
    (∀ k, k < 5 →
      ((DatabaseSink.mk "logs").setup Clock.test (Store.failingAt Db.fresh k)).1
        = some (StoreError.failed k) ∧
      ((DatabaseSink.mk "logs").setup Clock.test (Store.failingAt Db.fresh k)).2.2.db "logs"
        = none) ∧
    ((DatabaseSink.mk "logs").setup Clock.test (Store.reliable Db.fresh)).1 = none :=
  ⟨⟨by decide, by decide⟩,
    (setup_atomic (DatabaseSink.mk "logs") Clock.test (Store.failingAt Db.fresh 3)).1 3
      (by decide) (by decide),
    by decide,
    (setup_atomic (DatabaseSink.mk "logs") Clock.test (Store.reliable Db.fresh)).2.1
      (fun _ _ => rfl)⟩

/-- C15, amended: `setup` inserts the setup message only if the table held no row
when it was counted: whenever a call changes the rows of the target table, the
table did not exist before that call or existed without any row, the call has
returned normally and the table now holds the seed row alone. -/
theorem setup_seeds_only_absent_or_empty (sink : DatabaseSink) (clock c1 : Clock)
    (store s1 : Store) (o : Option StoreError)
    (h : sink.setup clock store = (o, c1, s1))
    (hins : s1.db.rows sink.table ≠ store.db.rows sink.table) :
    (store.db sink.table = none ∨ ∃ tb, store.db sink.table = some tb ∧ tb.rows = []) ∧
    o = none ∧
    ∃ id, s1.db.rows sink.table
      = [{ id := id, level := "notice", timestamp := clock.readings clock.reads,
           message := "Initial setup complete." }] := by
  cases o with
  | some e =>
    have hdb := setup_failure sink clock c1 store s1 e h
    exact absurd (by rw [hdb]) hins
  | none =>
    rcases setup_success sink clock c1 store s1 h with
      ⟨_, _, _, hdb, _⟩ | ⟨tb, htb, hrows, _, hdb⟩ | ⟨hnone, _, hdb⟩
    · exact absurd (by rw [hdb]) hins
    · exact ⟨Or.inr ⟨tb, htb, hrows⟩, rfl, tb.nextId, by rw [hdb, Db.rows_set]; rfl⟩
    · exact ⟨Or.inl hnone, rfl, 1, by rw [hdb, Db.rows_set]; rfl⟩

/-- Witness of C15: the seed row is inserted both on a store without the table
and on a store where the table exists without rows. -/
theorem setup_seeds_only_absent_or_empty_witness :
    ((Store.reliable Db.fresh).db "logs" = none ∨
      ∃ tb, (Store.reliable Db.fresh).db "logs" = some tb ∧ tb.rows = []) ∧
    ((Store.reliable (Db.emptyTable "logs" 5)).db "logs" = none ∨
      ∃ tb, (Store.reliable (Db.emptyTable "logs" 5)).db "logs" = some tb ∧ tb.rows = []) ∧
    (∃ id, ((DatabaseSink.mk "logs").setup Clock.test
        (Store.reliable (Db.emptyTable "logs" 5))).2.2.db.rows "logs"
      = [{ id := id, level := "notice", timestamp := 1700000000,
           message := "Initial setup complete." }]) :=
  ⟨(setup_seeds_only_absent_or_empty (DatabaseSink.mk "logs") Clock.test _
      (Store.reliable Db.fresh) _ _ rfl (by decide)).1,
    (setup_seeds_only_absent_or_empty (DatabaseSink.mk "logs") Clock.test _
      (Store.reliable (Db.emptyTable "logs" 5)) _ _ rfl (by decide)).1,
    (setup_seeds_only_absent_or_empty (DatabaseSink.mk "logs") Clock.test _
      (Store.reliable (Db.emptyTable "logs" 5)) _ _ rfl (by decide)).2.2⟩

end PostLog
